import Mathlib

/-
Shallow embedding of the TileDB Query core (src/tiledb/sm/query/query.cc) used
to verify the natural-language specification's claims.

Modelling conventions:
* Machine scalars of the ten numeric domain datatypes are modelled as `Rat`:
  the bounds check only compares values, and every finite value of the eight
  integer widths and the two float widths is a rational.  uint64 offsets are
  modelled as `Nat` (the code only compares them and divides a byte count
  by 8, so no wraparound is observable).
* Raw pointers that the code merely indexes are modelled as total functions
  from the index; nullable pointers are wrapped in `Option`.
* `Status` mirrors tiledb::sm::Status: `ok`, `queryError msg` for
  Status::QueryError(msg), `engineError msg` for statuses produced by the
  Reader/Writer engines (which carry their own status codes distinct from
  QueryError), and `assertFail` marking an `assert(false)` abort.
* The Reader and Writer engines are external collaborators (their sources
  are not part of this development).  Modelled from the spec: the spec
  treats engine results as opaque statuses surfaced verbatim, so each
  engine call's outcome is a parameter (`Engine`), `none` meaning success
  and `some msg` an opaque engine error.
-/

namespace TileDB

/-- Datatype enumeration from tiledb/sm/enums/datatype.h as used by query.cc. -/
inductive Datatype
  | INT8 | UINT8 | INT16 | UINT16 | INT32 | UINT32 | INT64 | UINT64
  | FLOAT32 | FLOAT64
  | CHAR | STRING_ASCII | STRING_UTF8 | STRING_UTF16 | STRING_UTF32
  | STRING_UCS2 | STRING_UCS4 | ANY
deriving DecidableEq

/-- The ten numeric datatypes: exactly the arms of the switch in
Query::check_subarray_bounds / Query::copy_json_wip that dispatch to the
typed template instead of asserting. -/
def Datatype.isNumeric : Datatype → Bool
  | .INT8 | .UINT8 | .INT16 | .UINT16 | .INT32 | .UINT32
  | .INT64 | .UINT64 | .FLOAT32 | .FLOAT64 => true
  | _ => false

inductive QueryType | READ | WRITE
deriving DecidableEq

inductive QueryStatus | UNINITIALIZED | INPROGRESS | INCOMPLETE | COMPLETED | FAILED
deriving DecidableEq

inductive Layout | ROW_MAJOR | COL_MAJOR | GLOBAL_ORDER | UNORDERED
deriving DecidableEq

/-- Result of a Query-core operation (tiledb::sm::Status).
`assertFail` marks executions that hit `assert(false)` in the source. -/
inductive Status
  | ok
  | queryError (msg : String)
  | engineError (msg : String)
  | assertFail
deriving DecidableEq

/-- A dimension as consumed by the bounds check: `domain()` is a pair of two
consecutive scalars of the domain type (dimension.h). -/
structure Dimension where
  lo : Rat
  hi : Rat
deriving DecidableEq

/-- The schema's domain: a shared datatype and the ordered dimensions. -/
structure Domain where
  dtype : Datatype
  dims : List Dimension
deriving DecidableEq

/- ------------------------------------------------------------------ -/
/- Error message strings, verbatim from query.cc.                      -/
/- ------------------------------------------------------------------ -/

def oobMsg : String := "Subarray out of bounds"

def rangeMsg : String := "Subarray lower bound is larger than upper bound"

def schemaNotSetMsg : String := "Cannot check subarray; Array schema not set"

def nullBufMsg : String := "Cannot use null offset buffers."

def ascMsg : String :=
  "Invalid offsets; offsets must be given in strictly ascending order."

def offSizeMsg (o v : Nat) : String :=
  "Invalid offsets; offset " ++ toString o ++ " specified for buffer of size "
    ++ toString v

def notInitMsg : String := "Cannot process query; Query is not initialized"

def fixedMismatchMsg (r d : Nat) : String :=
  "Existing buffer in query object is different size (" ++ toString r ++
    ") vs new query object buffer size (" ++ toString d ++ ")"

def varMismatchMsg (r d : Nat) : String :=
  "Existing buffer_var_ in query object is different size (" ++ toString r ++
    ") vs new query object buffer_var size (" ++ toString d ++ ")"

/- ------------------------------------------------------------------ -/
/- Query::check_subarray_bounds (query.cc:438-509)                     -/
/- ------------------------------------------------------------------ -/

/-- The loop body of the template Query::check_subarray_bounds<T>
(query.cc:499-506): dimension `i` checks `subarray[2i]` and `subarray[2i+1]`
against the dimension's stored domain pair. -/
def check_dims (sub : Nat → Rat) : List Dimension → Nat → Status
  | [], _ => Status.ok
  | d :: rest, i =>
    if sub (2 * i) < d.lo ∨ d.hi < sub (2 * i + 1) then Status.queryError oobMsg
    else if sub (2 * i + 1) < sub (2 * i) then Status.queryError rangeMsg
    else check_dims sub rest (i + 1)

/-- Query::check_subarray_bounds(const void*) (query.cc:438-491): null
subarray is accepted; a null schema is SchemaNotSet; the switch dispatches
every numeric datatype to the typed check and hits `assert(false)` on the
non-numeric placeholder datatypes. -/
def check_subarray_bounds (schema : Option Domain) (subarray : Option (Nat → Rat)) :
    Status :=
  match subarray with
  | none => Status.ok
  | some sub =>
    match schema with
    | none => Status.queryError schemaNotSetMsg
    | some dom =>
      if dom.dtype.isNumeric then check_dims sub dom.dims 0
      else Status.assertFail

/-- The acceptance condition for one dimension, as the claim states it:
`subarray[2i] ≥ d0`, `subarray[2i+1] ≤ d1`, `subarray[2i] ≤ subarray[2i+1]`. -/
def dimAccepts (sub : Nat → Rat) (d : Dimension) (i : Nat) : Prop :=
  d.lo ≤ sub (2 * i) ∧ sub (2 * i + 1) ≤ d.hi ∧ sub (2 * i) ≤ sub (2 * i + 1)

instance (sub : Nat → Rat) (d : Dimension) (i : Nat) : Decidable (dimAccepts sub d i) := by
  unfold dimAccepts; infer_instance

/- ------------------------------------------------------------------ -/
/- Query::check_var_attr_offsets (query.cc:162-195)                    -/
/- ------------------------------------------------------------------ -/

/-- The `for (i = 1; i < num_offsets; i++)` loop of check_var_attr_offsets:
`rem` iterations remain, `i` is the current index, `prev` the previous
offset. -/
def offsets_loop (off : Nat → Nat) (valSize : Nat) : Nat → Nat → Nat → Status
  | 0, _, _ => Status.ok
  | rem + 1, i, prev =>
    if off i ≤ prev then Status.queryError ascMsg
    else if valSize ≤ off i then Status.queryError (offSizeMsg (off i) valSize)
    else offsets_loop off valSize rem (i + 1) (off i)

/-- Query::check_var_attr_offsets (query.cc:162-195).  The three pointer
arguments are nullable; `num_offsets = *buffer_off_size / sizeof(uint64_t)`. -/
def check_var_attr_offsets (boff : Option (Nat → Nat))
    (boffSize bvalSize : Option Nat) : Status :=
  match boff, boffSize, bvalSize with
  | some off, some offSize, some valSize =>
    let n := offSize / 8
    if n = 0 then Status.ok
    else if valSize ≤ off 0 then Status.queryError (offSizeMsg (off 0) valSize)
    else offsets_loop off valSize (n - 1) 1 (off 0)
  | _, _, _ => Status.queryError nullBufMsg

/- ------------------------------------------------------------------ -/
/- Query state, engine oracle, and the Query operations                -/
/- ------------------------------------------------------------------ -/

/-- One attribute's I/O buffers (tiledb::sm::AttributeBuffer): the fixed
payload bytes and `*buffer_size_`, plus the optional variable payload bytes
(`buffer_var_`, null when the attribute is fixed-length) and
`*buffer_var_size_`. -/
structure AttributeBuffer where
  data : List Nat
  dataSize : Nat
  varData : Option (List Nat)
  varSize : Nat
deriving DecidableEq

/-- Modelled from the spec: the Reader/Writer engines are external
collaborators whose sources are outside this development; the spec treats
their results as opaque statuses surfaced verbatim.  Each field is the
outcome of one delegated engine call (`none` = success, `some msg` = an
opaque engine error), plus `Reader::incomplete()` observed after a read. -/
structure Engine where
  subarrayResult : Option String
  runResult : Option String
  readerIncomplete : Bool
  finalizeResult : Option String

/-- The Status an engine call surfaces. -/
def engStatus : Option String → Status
  | none => Status.ok
  | some m => Status.engineError m

/-- The Query façade state visible to the claims: type, status, layout, the
schema reference, the attribute-buffer registry and whether a completion
callback is registered. -/
structure Query where
  qtype : QueryType
  status : QueryStatus
  layout : Layout
  schema : Option Domain
  buffers : List (String × AttributeBuffer)
  hasCallback : Bool

/-- Observable events of one process() call, used to state the
callback-before-completion ordering. -/
inductive Event
  | callbackRun
  | statusSet (s : QueryStatus)
deriving DecidableEq

/-- Query::cancel (query.cc:157-160). -/
def Query.cancel (q : Query) : Status × Query :=
  (Status.ok, { q with status := QueryStatus.FAILED })

/-- Query::set_subarray (query.cc:403-414): bounds check, then the engine's
set_subarray, then `status_ = UNINITIALIZED`. -/
def Query.set_subarray (q : Query) (eng : Engine) (subarray : Option (Nat → Rat)) :
    Status × Query :=
  match check_subarray_bounds q.schema subarray with
  | Status.ok =>
    match eng.subarrayResult with
    | some m => (Status.engineError m, q)
    | none => (Status.ok, { q with status := QueryStatus.UNINITIALIZED })
  | e => (e, q)

/-- Query::process (query.cc:311-343).  Besides the result and the new
state, the model records the ordered observable events: each assignment to
`status_` and the callback invocation. -/
def Query.process (q : Query) (eng : Engine) : Status × Query × List Event :=
  if q.status = QueryStatus.UNINITIALIZED then
    (Status.queryError notInitMsg, q, [])
  else
    match eng.runResult with
    | some m =>
      (Status.engineError m, { q with status := QueryStatus.FAILED },
        [Event.statusSet QueryStatus.INPROGRESS, Event.statusSet QueryStatus.FAILED])
    | none =>
      if (if q.qtype = QueryType.WRITE then true else !eng.readerIncomplete) then
        (Status.ok, { q with status := QueryStatus.COMPLETED },
          [Event.statusSet QueryStatus.INPROGRESS] ++
            (if q.hasCallback then [Event.callbackRun] else []) ++
            [Event.statusSet QueryStatus.COMPLETED])
      else
        (Status.ok, { q with status := QueryStatus.INCOMPLETE },
          [Event.statusSet QueryStatus.INPROGRESS,
            Event.statusSet QueryStatus.INCOMPLETE])

/-- Query::finalize (query.cc:98-105): no-op returning Ok when
UNINITIALIZED, otherwise the writer's finalize then `status_ = COMPLETED`. -/
def Query.finalize (q : Query) (eng : Engine) : Status × Query :=
  if q.status = QueryStatus.UNINITIALIZED then (Status.ok, q)
  else
    match eng.finalizeResult with
    | some m => (Status.engineError m, q)
    | none => (Status.ok, { q with status := QueryStatus.COMPLETED })

/- ------------------------------------------------------------------ -/
/- Query::copy_buffers (query.cc:197-253)                              -/
/- ------------------------------------------------------------------ -/

/-- Update every entry of the registry carrying `name` (unordered_map keys
are unique, so at most one in practice). -/
def updBuf (name : String) (f : AttributeBuffer → AttributeBuffer) :
    List (String × AttributeBuffer) → List (String × AttributeBuffer) :=
  List.map fun p => if p.1 = name then (p.1, f p.2) else p

/-- memcpy of `n` bytes from the donor's fixed payload into the receiver's
fixed payload; bytes past `n` are untouched. -/
def memcpyFixed (src : List Nat) (n : Nat) (b : AttributeBuffer) : AttributeBuffer :=
  { b with data := src.take n ++ b.data.drop n }

/-- memcpy of `n` bytes from the donor's variable payload into the
receiver's variable payload. -/
def memcpyVar (src : List Nat) (n : Nat) (b : AttributeBuffer) : AttributeBuffer :=
  { b with varData := some (src.take n ++ (b.varData.getD []).drop n) }

/-- The loop of Query::copy_buffers.  `existing` is the snapshot
`existing_buffers = attribute_buffers()` taken before the loop (its sizes
are never written during the loop, so lookups through it agree with the
live registry); `recv` is the live receiver registry whose payload bytes
the memcpys mutate.  The donor's `free` calls release donor-owned
allocations and do not affect the receiver, so they have no counterpart
here; the `set_buffer` branch registers the donor's buffers with the
receiver's engine and its Status is discarded by the source. -/
def copy_buffers_go (existing : List (String × AttributeBuffer)) :
    List (String × AttributeBuffer) → List (String × AttributeBuffer) →
      Status × List (String × AttributeBuffer)
  | [], recv => (Status.ok, recv)
  | (name, b) :: rest, recv =>
    match List.lookup name existing with
    | some eb =>
      if eb.dataSize ≠ b.dataSize then
        (Status.queryError (fixedMismatchMsg eb.dataSize b.dataSize), recv)
      else
        let recv1 := updBuf name (memcpyFixed b.data b.dataSize) recv
        match b.varData with
        | some vd =>
          if eb.varSize ≠ b.varSize then
            (Status.queryError (varMismatchMsg eb.varSize b.varSize), recv1)
          else copy_buffers_go existing rest (updBuf name (memcpyVar vd b.varSize) recv1)
        | none => copy_buffers_go existing rest recv1
    | none => copy_buffers_go existing rest ((name, b) :: recv)

/-- Query::copy_buffers (query.cc:197-253): iterate the donor's buffers
against the snapshot of the receiver's. -/
def copy_buffers (recv donor : List (String × AttributeBuffer)) :
    Status × List (String × AttributeBuffer) :=
  copy_buffers_go recv donor recv

/- ------------------------------------------------------------------ -/
/- Query::copy_json_wip (query.cc:255-309)                             -/
/- ------------------------------------------------------------------ -/

/-- Query::copy_json_wip: assigns the donor's type, status and layout, then
dispatches on the receiver's schema domain type (`set_array_schema` is
commented out in the source, so the schema stays the receiver's): numeric
types call set_subarray with the donor's subarray and discard its Status;
non-numeric types hit `assert(false)`.  A null schema would dereference a
null pointer in `array_schema()->domain()->type()`; that undefined access
is modelled as an abort.  Finally the donor's buffers are merged via
copy_buffers, whose Status is the one returned. -/
def Query.copy_json_wip (recv donor : Query) (eng : Engine)
    (dsub : Option (Nat → Rat)) : Status × Query :=
  let q1 := { recv with
    qtype := donor.qtype, status := donor.status, layout := donor.layout }
  match q1.schema with
  | none => (Status.assertFail, q1)
  | some dom =>
    if dom.dtype.isNumeric then
      let q2 := (Query.set_subarray q1 eng dsub).2
      let r := copy_buffers q2.buffers donor.buffers
      (r.1, { q2 with buffers := r.2 })
    else (Status.assertFail, q1)

/- ------------------------------------------------------------------ -/
/- Helper lemmas                                                       -/
/- ------------------------------------------------------------------ -/

theorem check_dims_ok_iff (sub : Nat → Rat) :
    ∀ (l : List Dimension) (i : Nat),
      check_dims sub l i = Status.ok ↔
        ∀ k (hk : k < l.length), dimAccepts sub (l.get ⟨k, hk⟩) (i + k) := by
  intro l
  induction l with
  | nil =>
    intro i
    simp [check_dims]
  | cons d rest ih =>
    intro i
    simp only [check_dims]
    by_cases h1 : sub (2 * i) < d.lo ∨ d.hi < sub (2 * i + 1)
    · rw [if_pos h1]
      constructor
      · intro h; exact absurd h (by simp)
      · intro hall
        have h0 := hall 0 (Nat.succ_pos rest.length)
        simp only [List.get, Nat.add_zero] at h0
        rcases h1 with h1 | h1
        · exact absurd h0.1 (not_le.mpr h1)
        · exact absurd h0.2.1 (not_le.mpr h1)
    · rw [if_neg h1]
      by_cases h2 : sub (2 * i + 1) < sub (2 * i)
      · rw [if_pos h2]
        constructor
        · intro h; exact absurd h (by simp)
        · intro hall
          have h0 := hall 0 (Nat.succ_pos rest.length)
          simp only [List.get, Nat.add_zero] at h0
          exact absurd h0.2.2 (not_le.mpr h2)
      · rw [if_neg h2]
        rw [ih (i + 1)]
        push_neg at h1 h2
        constructor
        · intro hrest k hk
          match k, hk with
          | 0, _ =>
            simp only [List.get, Nat.add_zero]
            exact ⟨h1.1, h1.2, h2⟩
          | k + 1, hk =>
            have hk' : k < rest.length := Nat.lt_of_succ_lt_succ hk
            have := hrest k hk'
            simp only [List.get]
            have harith : i + 1 + k = i + (k + 1) := by omega
            rw [harith] at this
            exact this
        · intro hall k hk
          have := hall (k + 1) (Nat.succ_lt_succ hk)
          simp only [List.get] at this
          have harith : i + (k + 1) = i + 1 + k := by omega
          rw [harith] at this
          exact this

theorem check_dims_err_at (sub : Nat → Rat) :
    ∀ (l : List Dimension) (i j : Nat) (hj : j < l.length),
      (∀ k (hk : k < j), dimAccepts sub (l.get ⟨k, Nat.lt_trans hk hj⟩) (i + k)) →
      ((sub (2 * (i + j)) < (l.get ⟨j, hj⟩).lo ∨
          (l.get ⟨j, hj⟩).hi < sub (2 * (i + j) + 1)) →
        check_dims sub l i = Status.queryError oobMsg) ∧
      (¬(sub (2 * (i + j)) < (l.get ⟨j, hj⟩).lo ∨
          (l.get ⟨j, hj⟩).hi < sub (2 * (i + j) + 1)) →
        sub (2 * (i + j) + 1) < sub (2 * (i + j)) →
        check_dims sub l i = Status.queryError rangeMsg) := by
  intro l
  induction l with
  | nil =>
    intro i j hj
    exact absurd hj (Nat.not_lt_zero j)
  | cons d rest ih =>
    intro i j hj hpre
    match j with
    | 0 =>
      simp only [List.get, Nat.add_zero]
      constructor
      · intro hbad
        simp only [check_dims]
        rw [if_pos hbad]
      · intro hgood hempty
        simp only [check_dims]
        rw [if_neg hgood, if_pos hempty]
    | m + 1 =>
      have h0 := hpre 0 (Nat.succ_pos m)
      simp only [List.get, Nat.add_zero] at h0
      have hnot1 : ¬(sub (2 * i) < d.lo ∨ d.hi < sub (2 * i + 1)) := by
        push_neg
        exact ⟨h0.1, h0.2.1⟩
      have hnot2 : ¬(sub (2 * i + 1) < sub (2 * i)) := not_lt.mpr h0.2.2
      have hm : m < rest.length := Nat.lt_of_succ_lt_succ hj
      have hpre' : ∀ k (hk : k < m),
          dimAccepts sub (rest.get ⟨k, Nat.lt_trans hk hm⟩) (i + 1 + k) := by
        intro k hk
        have := hpre (k + 1) (Nat.succ_lt_succ hk)
        simp only [List.get] at this
        have harith : i + (k + 1) = i + 1 + k := by omega
        rw [harith] at this
        exact this
      have hrec := ih (i + 1) m hm hpre'
      have harith : i + 1 + m = i + (m + 1) := by omega
      rw [harith] at hrec
      simp only [List.get]
      simp only [check_dims]
      rw [if_neg hnot1, if_neg hnot2]
      exact hrec

theorem offsets_loop_ok_iff (off : Nat → Nat) (valSize : Nat) :
    ∀ (rem i : Nat),
      offsets_loop off valSize rem (i + 1) (off i) = Status.ok ↔
        ∀ k, k < rem → off (i + k) < off (i + k + 1) ∧ off (i + k + 1) < valSize := by
  intro rem
  induction rem with
  | zero =>
    intro i
    simp [offsets_loop]
  | succ m ih =>
    intro i
    simp only [offsets_loop]
    by_cases h1 : off (i + 1) ≤ off i
    · rw [if_pos h1]
      constructor
      · intro h; exact absurd h (by simp)
      · intro hall
        have h0 := (hall 0 (Nat.succ_pos m)).1
        rw [Nat.add_zero] at h0
        omega
    · rw [if_neg h1]
      by_cases h2 : valSize ≤ off (i + 1)
      · rw [if_pos h2]
        constructor
        · intro h; exact absurd h (by simp)
        · intro hall
          have h0 := (hall 0 (Nat.succ_pos m)).2
          rw [Nat.add_zero] at h0
          omega
      · rw [if_neg h2]
        have hstep : i + 1 + 1 = (i + 1) + 1 := rfl
        rw [ih (i + 1)]
        constructor
        · intro h k hk
          match k, hk with
          | 0, _ =>
            rw [Nat.add_zero]
            omega
          | k + 1, hk =>
            have := h k (Nat.lt_of_succ_lt_succ hk)
            have ha : i + 1 + k = i + (k + 1) := by omega
            rw [ha] at this
            exact this
        · intro h k hk
          have := h (k + 1) (Nat.succ_lt_succ hk)
          have ha : i + (k + 1) = i + 1 + k := by omega
          rw [ha] at this
          exact this

theorem offsets_loop_err_forms (off : Nat → Nat) (valSize : Nat) :
    ∀ (rem i prev : Nat),
      offsets_loop off valSize rem i prev = Status.ok ∨
      offsets_loop off valSize rem i prev = Status.queryError ascMsg ∨
      ∃ o, offsets_loop off valSize rem i prev = Status.queryError (offSizeMsg o valSize) := by
  intro rem
  induction rem with
  | zero =>
    intro i prev
    exact Or.inl rfl
  | succ m ih =>
    intro i prev
    simp only [offsets_loop]
    by_cases h1 : off i ≤ prev
    · rw [if_pos h1]
      exact Or.inr (Or.inl rfl)
    · rw [if_neg h1]
      by_cases h2 : valSize ≤ off i
      · rw [if_pos h2]
        exact Or.inr (Or.inr ⟨off i, rfl⟩)
      · rw [if_neg h2]
        exact ih (i + 1) (off i)

theorem lookup_updBuf_ne (a n : String) (f : AttributeBuffer → AttributeBuffer)
    (m : List (String × AttributeBuffer)) (h : a ≠ n) :
    List.lookup a (updBuf n f m) = List.lookup a m := by
  induction m with
  | nil => rfl
  | cons p rest ih =>
    obtain ⟨k, v⟩ := p
    simp only [updBuf, List.map_cons]
    by_cases hk : k = n
    · subst hk
      simp only [if_pos rfl]
      have hak : (a == k) = false := beq_false_of_ne h
      simp only [List.lookup, hak]
      exact ih
    · rw [if_neg hk]
      by_cases hak : a = k
      · subst hak
        simp [List.lookup]
      · have hak' : (a == k) = false := beq_false_of_ne hak
        simp only [List.lookup, hak']
        exact ih

theorem lookup_updBuf_self (n : String) (f : AttributeBuffer → AttributeBuffer)
    (m : List (String × AttributeBuffer)) :
    List.lookup n (updBuf n f m) = (List.lookup n m).map f := by
  induction m with
  | nil => rfl
  | cons p rest ih =>
    obtain ⟨k, v⟩ := p
    simp only [updBuf, List.map_cons]
    by_cases hk : k = n
    · subst hk
      rw [if_pos rfl]
      simp [List.lookup]
    · rw [if_neg hk]
      have hnk : (n == k) = false := beq_false_of_ne (fun h => hk h.symm)
      simp only [List.lookup, hnk]
      exact ih

theorem copy_buffers_go_append (existing : List (String × AttributeBuffer)) :
    ∀ (pre rest recv : List (String × AttributeBuffer)),
      copy_buffers_go existing (pre ++ rest) recv =
        (if (copy_buffers_go existing pre recv).1 = Status.ok
         then copy_buffers_go existing rest (copy_buffers_go existing pre recv).2
         else copy_buffers_go existing pre recv) := by
  intro pre
  induction pre with
  | nil =>
    intro rest recv
    simp [copy_buffers_go]
  | cons hd tl ih =>
    intro rest recv
    obtain ⟨name, b⟩ := hd
    simp only [List.cons_append, copy_buffers_go]
    cases hl : List.lookup name existing with
    | none => exact ih rest ((name, b) :: recv)
    | some eb =>
      dsimp only
      by_cases hsz : eb.dataSize ≠ b.dataSize
      · rw [if_pos hsz, if_pos hsz]
        rw [if_neg (by simp)]
      · rw [if_neg hsz, if_neg hsz]
        cases hv : b.varData with
        | none => exact ih rest (updBuf name (memcpyFixed b.data b.dataSize) recv)
        | some vd =>
          dsimp only
          by_cases hvs : eb.varSize ≠ b.varSize
          · rw [if_pos hvs, if_pos hvs]
            rw [if_neg (by simp)]
          · rw [if_neg hvs, if_neg hvs]
            exact ih rest
              (updBuf name (memcpyVar vd b.varSize)
                (updBuf name (memcpyFixed b.data b.dataSize) recv))

theorem copy_buffers_go_lookup_preserved (existing : List (String × AttributeBuffer))
    (a : String) :
    ∀ (donor recv : List (String × AttributeBuffer)),
      a ∉ donor.map Prod.fst →
      List.lookup a (copy_buffers_go existing donor recv).2 = List.lookup a recv := by
  intro donor
  induction donor with
  | nil =>
    intro recv _
    rfl
  | cons hd tl ih =>
    intro recv hmem
    obtain ⟨name, b⟩ := hd
    simp only [List.map_cons, List.mem_cons] at hmem
    push_neg at hmem
    obtain ⟨hne, hrest⟩ := hmem
    simp only [copy_buffers_go]
    cases hl : List.lookup name existing with
    | none =>
      rw [ih ((name, b) :: recv) hrest]
      have : (a == name) = false := beq_false_of_ne hne
      simp [List.lookup, this]
    | some eb =>
      dsimp only
      by_cases hsz : eb.dataSize ≠ b.dataSize
      · rw [if_pos hsz]
      · rw [if_neg hsz]
        cases hv : b.varData with
        | none =>
          rw [ih _ hrest]
          exact lookup_updBuf_ne a name _ recv hne
        | some vd =>
          dsimp only
          by_cases hvs : eb.varSize ≠ b.varSize
          · rw [if_pos hvs]
            exact lookup_updBuf_ne a name _ recv hne
          · rw [if_neg hvs]
            rw [ih _ hrest]
            rw [lookup_updBuf_ne a name _ _ hne]
            exact lookup_updBuf_ne a name _ recv hne

theorem copy_buffers_go_err_forms (existing : List (String × AttributeBuffer)) :
    ∀ (donor recv : List (String × AttributeBuffer)),
      (copy_buffers_go existing donor recv).1 = Status.ok ∨
      (∃ r d, (copy_buffers_go existing donor recv).1 =
          Status.queryError (fixedMismatchMsg r d)) ∨
      (∃ r d, (copy_buffers_go existing donor recv).1 =
          Status.queryError (varMismatchMsg r d)) := by
  intro donor
  induction donor with
  | nil =>
    intro recv
    exact Or.inl rfl
  | cons hd tl ih =>
    intro recv
    obtain ⟨name, b⟩ := hd
    simp only [copy_buffers_go]
    cases hl : List.lookup name existing with
    | none => exact ih ((name, b) :: recv)
    | some eb =>
      dsimp only
      by_cases hsz : eb.dataSize ≠ b.dataSize
      · rw [if_pos hsz]
        exact Or.inr (Or.inl ⟨eb.dataSize, b.dataSize, rfl⟩)
      · rw [if_neg hsz]
        cases hv : b.varData with
        | none => exact ih _
        | some vd =>
          dsimp only
          by_cases hvs : eb.varSize ≠ b.varSize
          · rw [if_pos hvs]
            exact Or.inr (Or.inr ⟨eb.varSize, b.varSize, rfl⟩)
          · rw [if_neg hvs]
            exact ih _

theorem copy_buffers_no_engineError (existing donor recv : List (String × AttributeBuffer))
    (m : String) : (copy_buffers_go existing donor recv).1 ≠ Status.engineError m := by
  rcases copy_buffers_go_err_forms existing donor recv with h | ⟨r, d, h⟩ | ⟨r, d, h⟩ <;>
    · rw [h]
      simp

/- ------------------------------------------------------------------ -/
/- Claim theorems                                                      -/
/- ------------------------------------------------------------------ -/

/-- C1: for every Query whose schema domain type is one of the ten numeric
types, check_subarray_bounds accepts a null subarray, and accepts a non-null
subarray of 2*dim_num scalars of the domain type if and only if for every
dimension i: subarray[2i] ≥ dim_domain[0], subarray[2i+1] ≤ dim_domain[1],
and subarray[2i] ≤ subarray[2i+1]; at the first violating dimension, a bound
outside the dimension domain is rejected with the SubarrayOutOfBounds
message and an in-domain empty range (low > high) with the
InvalidSubarrayRange message. -/
theorem c1_check_subarray_bounds_numeric (dt : Datatype) (dims : List Dimension)
    (sub : Nat → Rat) (hdt : dt.isNumeric = true) :
    check_subarray_bounds (some ⟨dt, dims⟩) none = Status.ok ∧
    (check_subarray_bounds (some ⟨dt, dims⟩) (some sub) = Status.ok ↔
      ∀ k (hk : k < dims.length), dimAccepts sub (dims.get ⟨k, hk⟩) k) ∧
    (∀ j (hj : j < dims.length),
      (∀ k (hk : k < j), dimAccepts sub (dims.get ⟨k, Nat.lt_trans hk hj⟩) k) →
      ((sub (2 * j) < (dims.get ⟨j, hj⟩).lo ∨
          (dims.get ⟨j, hj⟩).hi < sub (2 * j + 1)) →
        check_subarray_bounds (some ⟨dt, dims⟩) (some sub) =
          Status.queryError oobMsg) ∧
      (¬(sub (2 * j) < (dims.get ⟨j, hj⟩).lo ∨
          (dims.get ⟨j, hj⟩).hi < sub (2 * j + 1)) →
        sub (2 * j + 1) < sub (2 * j) →
        check_subarray_bounds (some ⟨dt, dims⟩) (some sub) =
          Status.queryError rangeMsg)) := by
  have hred : check_subarray_bounds (some ⟨dt, dims⟩) (some sub) =
      check_dims sub dims 0 := by
    simp [check_subarray_bounds, hdt]
  refine ⟨rfl, ?_, ?_⟩
  · rw [hred, check_dims_ok_iff]
    constructor
    · intro h k hk
      have := h k hk
      rw [Nat.zero_add] at this
      exact this
    · intro h k hk
      rw [Nat.zero_add]
      exact h k hk
  · intro j hj hpre
    have hpre' : ∀ k (hk : k < j),
        dimAccepts sub (dims.get ⟨k, Nat.lt_trans hk hj⟩) (0 + k) := by
      intro k hk
      rw [Nat.zero_add]
      exact hpre k hk
    have := check_dims_err_at sub dims 0 j hj hpre'
    rw [Nat.zero_add] at this
    rw [hred]
    exact this

/-- C1 witness: the INT32 domain [0,9] with the whole-domain subarray. -/
theorem c1_check_subarray_bounds_numeric_witness :
    Datatype.isNumeric Datatype.INT32 = true ∧
    check_subarray_bounds (some ⟨Datatype.INT32, [⟨0, 9⟩]⟩) none = Status.ok ∧
    check_subarray_bounds (some ⟨Datatype.INT32, [⟨0, 9⟩]⟩)
      (some fun k => if k = 1 then 9 else 0) = Status.ok := by
  have h := c1_check_subarray_bounds_numeric Datatype.INT32 [⟨0, 9⟩]
    (fun k => if k = 1 then 9 else 0) rfl
  refine ⟨rfl, h.1, ?_⟩
  rw [h.2.1]
  intro k hk
  match k, hk with
  | 0, _ =>
    refine ⟨by norm_num, by norm_num, by norm_num⟩

/-- C2: check_var_attr_offsets fails with the NullBuffer message when any of
the three pointers is null; otherwise, with n = offsets_size / 8, it returns
OK when n = 0, and for n > 0 it returns OK if and only if offsets[0] <
values_size and every later offset in [1, n) is strictly larger than its
predecessor and smaller than values_size; any violation fails with one of
the two InvalidOffsets messages. -/
theorem c2_check_var_attr_offsets :
    (∀ (o : Option (Nat → Nat)) (os vs : Option Nat),
      (o = none ∨ os = none ∨ vs = none) →
      check_var_attr_offsets o os vs = Status.queryError nullBufMsg) ∧
    (∀ (off : Nat → Nat) (offSize valSize : Nat),
      (offSize / 8 = 0 →
        check_var_attr_offsets (some off) (some offSize) (some valSize) =
          Status.ok) ∧
      (0 < offSize / 8 →
        (check_var_attr_offsets (some off) (some offSize) (some valSize) =
            Status.ok ↔
          off 0 < valSize ∧
            ∀ i, 1 ≤ i → i < offSize / 8 →
              off (i - 1) < off i ∧ off i < valSize)) ∧
      (check_var_attr_offsets (some off) (some offSize) (some valSize) ≠
          Status.ok →
        check_var_attr_offsets (some off) (some offSize) (some valSize) =
            Status.queryError ascMsg ∨
          ∃ o v, check_var_attr_offsets (some off) (some offSize) (some valSize) =
            Status.queryError (offSizeMsg o v))) := by
  constructor
  · intro o os vs h
    rcases h with h | h | h
    · subst h; rfl
    · subst h; cases o <;> rfl
    · subst h; cases o <;> cases os <;> rfl
  · intro off offSize valSize
    refine ⟨?_, ?_, ?_⟩
    · intro h
      simp [check_var_attr_offsets, h]
    · intro hn
      have hne : ¬(offSize / 8 = 0) := Nat.pos_iff_ne_zero.mp hn
      simp only [check_var_attr_offsets]
      rw [if_neg hne]
      by_cases h0 : valSize ≤ off 0
      · rw [if_pos h0]
        constructor
        · intro h; exact absurd h (by simp)
        · intro h
          exact absurd h.1 (not_lt.mpr h0)
      · rw [if_neg h0]
        have hloop := offsets_loop_ok_iff off valSize (offSize / 8 - 1) 0
        simp only [Nat.zero_add] at hloop
        rw [hloop]
        constructor
        · intro h
          refine ⟨not_le.mp h0, ?_⟩
          intro i h1 h2
          have := h (i - 1) (by omega)
          have hi : i - 1 + 1 = i := by omega
          rw [hi] at this
          exact this
        · intro h k hk
          have := h.2 (k + 1) (by omega) (by omega)
          have hk1 : k + 1 - 1 = k := by omega
          rw [hk1] at this
          exact this
    · intro hne
      simp only [check_var_attr_offsets] at hne ⊢
      by_cases hz : offSize / 8 = 0
      · rw [if_pos hz] at hne
        exact absurd rfl hne
      · rw [if_neg hz] at hne ⊢
        by_cases h0 : valSize ≤ off 0
        · rw [if_pos h0] at hne ⊢
          exact Or.inr ⟨off 0, valSize, rfl⟩
        · rw [if_neg h0] at hne ⊢
          rcases offsets_loop_err_forms off valSize (offSize / 8 - 1) 1 (off 0) with
            h | h | ⟨o, h⟩
          · exact absurd h hne
          · exact Or.inl h
          · exact Or.inr ⟨o, valSize, h⟩

/-- C2 witness: null pointers are rejected, the empty offsets list is
accepted and a concrete strictly-ascending list is accepted. -/
theorem c2_check_var_attr_offsets_witness :
    check_var_attr_offsets none none none = Status.queryError nullBufMsg ∧
    check_var_attr_offsets (some fun i => i) (some 0) (some 5) = Status.ok ∧
    check_var_attr_offsets (some fun i => 2 * i) (some 16) (some 10) = Status.ok := by
  refine ⟨c2_check_var_attr_offsets.1 none none none (Or.inl rfl), ?_, ?_⟩
  · exact (c2_check_var_attr_offsets.2 (fun i => i) 0 5).1 rfl
  · rw [(c2_check_var_attr_offsets.2 (fun i => 2 * i) 16 10).2.1 (by norm_num)]
    refine ⟨by norm_num, ?_⟩
    intro i h1 h2
    have h2' : i < 2 := h2
    interval_cases i
    · refine ⟨by omega, by omega⟩

/-- C3: for every Query and every subarray argument, if set_subarray
succeeds the status afterwards is UNINITIALIZED regardless of the status
before; if it fails (bounds validation or engine rejection) the error is
returned and the Query is unchanged. -/
theorem c3_set_subarray_status (q : Query) (eng : Engine)
    (sub : Option (Nat → Rat)) :
    ((Query.set_subarray q eng sub).1 = Status.ok →
      (Query.set_subarray q eng sub).2.status = QueryStatus.UNINITIALIZED) ∧
    ((Query.set_subarray q eng sub).1 ≠ Status.ok →
      (Query.set_subarray q eng sub).2 = q) := by
  unfold Query.set_subarray
  cases hc : check_subarray_bounds q.schema sub with
  | ok =>
    cases he : eng.subarrayResult with
    | none => exact ⟨fun _ => rfl, fun h => absurd rfl h⟩
    | some m => exact ⟨fun h => absurd h (by simp), fun _ => rfl⟩
  | queryError m => exact ⟨fun h => absurd h (by simp), fun _ => rfl⟩
  | engineError m => exact ⟨fun h => absurd h (by simp), fun _ => rfl⟩
  | assertFail => exact ⟨fun h => absurd h (by simp), fun _ => rfl⟩

/-- C3 witness: a COMPLETED WRITE query accepts a null subarray and is
reset to UNINITIALIZED; an out-of-bounds subarray leaves a COMPLETED query
untouched. -/
theorem c3_set_subarray_status_witness :
    (Query.set_subarray
      ⟨QueryType.WRITE, QueryStatus.COMPLETED, Layout.ROW_MAJOR,
        some ⟨Datatype.INT32, [⟨0, 9⟩]⟩, [], false⟩
      ⟨none, none, false, none⟩ none).2.status = QueryStatus.UNINITIALIZED ∧
    (Query.set_subarray
      ⟨QueryType.WRITE, QueryStatus.COMPLETED, Layout.ROW_MAJOR,
        some ⟨Datatype.INT32, [⟨0, 9⟩]⟩, [], false⟩
      ⟨none, none, false, none⟩ (some fun _ => 100)).2.status =
      QueryStatus.COMPLETED := by
  constructor
  · exact (c3_set_subarray_status _ _ _).1 rfl
  · have h := (c3_set_subarray_status
      ⟨QueryType.WRITE, QueryStatus.COMPLETED, Layout.ROW_MAJOR,
        some ⟨Datatype.INT32, [⟨0, 9⟩]⟩, [], false⟩
      ⟨none, none, false, none⟩ (some fun _ => 100)).2 (by decide)
    rw [h]

/-- C9: after any process() call the status is never INPROGRESS: it is
UNINITIALIZED exactly when the NotInitialized error is returned, FAILED
exactly on an engine error, and COMPLETED or INCOMPLETE when OK is
returned. -/
theorem c9_process_status (q : Query) (eng : Engine) :
    (Query.process q eng).2.1.status ≠ QueryStatus.INPROGRESS ∧
    ((Query.process q eng).1 = Status.queryError notInitMsg →
      (Query.process q eng).2.1.status = QueryStatus.UNINITIALIZED) ∧
    (∀ m, (Query.process q eng).1 = Status.engineError m →
      (Query.process q eng).2.1.status = QueryStatus.FAILED) ∧
    ((Query.process q eng).1 = Status.ok →
      (Query.process q eng).2.1.status = QueryStatus.COMPLETED ∨
      (Query.process q eng).2.1.status = QueryStatus.INCOMPLETE) := by
  unfold Query.process
  by_cases hu : q.status = QueryStatus.UNINITIALIZED
  · rw [if_pos hu]
    refine ⟨?_, fun _ => hu, ?_, ?_⟩
    · rw [hu]; simp
    · intro m h; exact absurd h (by simp)
    · intro h; exact absurd h (by simp)
  · rw [if_neg hu]
    cases he : eng.runResult with
    | some m =>
      refine ⟨by simp, ?_, ?_, ?_⟩
      · intro h; exact absurd h (by simp)
      · intro m' _; rfl
      · intro h; exact absurd h (by simp)
    | none =>
      by_cases hw : (if q.qtype = QueryType.WRITE then true else !eng.readerIncomplete) = true
      · rw [if_pos hw]
        refine ⟨by simp, ?_, ?_, fun _ => Or.inl rfl⟩
        · intro h; exact absurd h (by simp)
        · intro m h; exact absurd h (by simp)
      · rw [if_neg hw]
        refine ⟨by simp, ?_, ?_, fun _ => Or.inr rfl⟩
        · intro h; exact absurd h (by simp)
        · intro m h; exact absurd h (by simp)

/-- C9 witness: a WRITE in INPROGRESS with a successful engine write ends
COMPLETED, never INPROGRESS. -/
theorem c9_process_status_witness :
    (Query.process
      ⟨QueryType.WRITE, QueryStatus.INPROGRESS, Layout.ROW_MAJOR, none, [], false⟩
      ⟨none, none, false, none⟩).2.1.status ≠ QueryStatus.INPROGRESS ∧
    ((Query.process
      ⟨QueryType.WRITE, QueryStatus.INPROGRESS, Layout.ROW_MAJOR, none, [], false⟩
      ⟨none, none, false, none⟩).2.1.status = QueryStatus.COMPLETED ∨
     (Query.process
      ⟨QueryType.WRITE, QueryStatus.INPROGRESS, Layout.ROW_MAJOR, none, [], false⟩
      ⟨none, none, false, none⟩).2.1.status = QueryStatus.INCOMPLETE) := by
  exact ⟨(c9_process_status _ _).1, (c9_process_status _ _).2.2.2 rfl⟩

/-- C7: on a successful completion (always for WRITE; for READ when the
reader is not incomplete), a registered callback is recorded exactly once in
the event trace of that process() call and strictly before the status
assignment to COMPLETED; an INCOMPLETE or FAILED outcome records no
callback. -/
theorem c7_process_callback (q : Query) (eng : Engine) :
    (q.status ≠ QueryStatus.UNINITIALIZED → eng.runResult = none →
      q.hasCallback = true →
      (q.qtype = QueryType.WRITE ∨ eng.readerIncomplete = false) →
      (Query.process q eng).2.2.count Event.callbackRun = 1 ∧
      (Query.process q eng).2.2.indexOf Event.callbackRun <
        (Query.process q eng).2.2.indexOf (Event.statusSet QueryStatus.COMPLETED)) ∧
    (((Query.process q eng).2.1.status = QueryStatus.INCOMPLETE ∨
       (Query.process q eng).2.1.status = QueryStatus.FAILED) →
      (Query.process q eng).2.2.count Event.callbackRun = 0) := by
  constructor
  · intro hu he hcb hw
    have hwb : (if q.qtype = QueryType.WRITE then true else !eng.readerIncomplete) = true := by
      rcases hw with hw | hw
      · rw [if_pos hw]
      · by_cases hq : q.qtype = QueryType.WRITE
        · rw [if_pos hq]
        · rw [if_neg hq, hw]
          rfl
    unfold Query.process
    rw [if_neg hu, he]
    simp only [hwb, if_pos, hcb, if_true]
    exact ⟨by decide, by decide⟩
  · intro hst
    unfold Query.process at hst ⊢
    by_cases hu : q.status = QueryStatus.UNINITIALIZED
    · rw [if_pos hu] at hst ⊢
      rw [hu] at hst
      simp at hst
    · rw [if_neg hu] at hst ⊢
      cases he : eng.runResult with
      | some m => simp [List.count_cons]
      | none =>
        rw [he] at hst
        by_cases hw : (if q.qtype = QueryType.WRITE then true else !eng.readerIncomplete) = true
        · rw [if_pos hw] at hst ⊢
          simp at hst
        · rw [if_neg hw] at hst ⊢
          simp [List.count_cons]

/-- C7 witness: an INPROGRESS WRITE with a callback registered and a
successful engine write records the callback exactly once, before the
COMPLETED status assignment. -/
theorem c7_process_callback_witness :
    (Query.process
      ⟨QueryType.WRITE, QueryStatus.INPROGRESS, Layout.ROW_MAJOR, none, [], true⟩
      ⟨none, none, false, none⟩).2.2.count Event.callbackRun = 1 ∧
    (Query.process
      ⟨QueryType.WRITE, QueryStatus.INPROGRESS, Layout.ROW_MAJOR, none, [], true⟩
      ⟨none, none, false, none⟩).2.2.indexOf Event.callbackRun <
      (Query.process
        ⟨QueryType.WRITE, QueryStatus.INPROGRESS, Layout.ROW_MAJOR, none, [], true⟩
        ⟨none, none, false, none⟩).2.2.indexOf
        (Event.statusSet QueryStatus.COMPLETED) := by
  exact (c7_process_callback _ _).1 (by decide) rfl rfl (Or.inl rfl)

/-- C4 counterexample: a FAILED WRITE query (as after cancel()) whose engine
write succeeds: process() is not a no-op — it returns OK but the status
becomes COMPLETED, not FAILED. -/
theorem c4_counterexample :
    (Query.process
      ⟨QueryType.WRITE, QueryStatus.FAILED, Layout.ROW_MAJOR, none, [], false⟩
      ⟨none, none, false, none⟩).1 = Status.ok ∧
    (Query.process
      ⟨QueryType.WRITE, QueryStatus.FAILED, Layout.ROW_MAJOR, none, [], false⟩
      ⟨none, none, false, none⟩).2.1.status = QueryStatus.COMPLETED ∧
    QueryStatus.COMPLETED ≠ QueryStatus.FAILED := by
  refine ⟨rfl, rfl, by decide⟩

/-- C4 amended: process() and finalize() do not special-case a FAILED
query; only UNINITIALIZED is guarded.  On a FAILED query, process() re-runs
the engine: on engine success it returns OK with status COMPLETED (or
INCOMPLETE for an unfinished read), on engine error it returns that error
with status FAILED; finalize() runs the writer's finalize and on success
returns OK with status COMPLETED. -/
theorem c4_amended_failed_not_guarded (q : Query) (eng : Engine)
    (h : q.status = QueryStatus.FAILED) :
    (eng.runResult = none →
      (Query.process q eng).1 = Status.ok ∧
      ((q.qtype = QueryType.WRITE ∨ eng.readerIncomplete = false) →
        (Query.process q eng).2.1.status = QueryStatus.COMPLETED) ∧
      ((q.qtype = QueryType.READ ∧ eng.readerIncomplete = true) →
        (Query.process q eng).2.1.status = QueryStatus.INCOMPLETE)) ∧
    (∀ m, eng.runResult = some m →
      (Query.process q eng).1 = Status.engineError m ∧
      (Query.process q eng).2.1.status = QueryStatus.FAILED) ∧
    (eng.finalizeResult = none →
      Query.finalize q eng =
        (Status.ok, { q with status := QueryStatus.COMPLETED })) ∧
    (∀ m, eng.finalizeResult = some m →
      Query.finalize q eng = (Status.engineError m, q)) := by
  have hu : ¬(q.status = QueryStatus.UNINITIALIZED) := by
    rw [h]; simp
  refine ⟨?_, ?_, ?_, ?_⟩
  · intro he
    unfold Query.process
    rw [if_neg hu, he]
    refine ⟨?_, ?_, ?_⟩
    · by_cases hw : (if q.qtype = QueryType.WRITE then true else !eng.readerIncomplete) = true
      · rw [if_pos hw]
      · rw [if_neg hw]
    · intro hw
      have hwb : (if q.qtype = QueryType.WRITE then true else !eng.readerIncomplete) = true := by
        rcases hw with hw | hw
        · rw [if_pos hw]
        · by_cases hq : q.qtype = QueryType.WRITE
          · rw [if_pos hq]
          · rw [if_neg hq, hw]; rfl
      rw [if_pos hwb]
    · intro hw
      have hq : ¬(q.qtype = QueryType.WRITE) := by
        rw [hw.1]; simp
      have hwb : ¬((if q.qtype = QueryType.WRITE then true else !eng.readerIncomplete) = true) := by
        rw [if_neg hq, hw.2]
        simp
      rw [if_neg hwb]
  · intro m he
    unfold Query.process
    rw [if_neg hu, he]
    exact ⟨rfl, rfl⟩
  · intro he
    unfold Query.finalize
    rw [if_neg hu, he]
  · intro m he
    unfold Query.finalize
    rw [if_neg hu, he]

/-- C4 amended witness: on a concrete FAILED WRITE query with a successful
engine, process() returns OK and the status is COMPLETED, and finalize()
also sets COMPLETED. -/
theorem c4_amended_failed_not_guarded_witness :
    (Query.process
      ⟨QueryType.WRITE, QueryStatus.FAILED, Layout.ROW_MAJOR, none, [], false⟩
      ⟨none, none, false, none⟩).2.1.status = QueryStatus.COMPLETED ∧
    (Query.finalize
      ⟨QueryType.WRITE, QueryStatus.FAILED, Layout.ROW_MAJOR, none, [], false⟩
      ⟨none, none, false, none⟩).2.status = QueryStatus.COMPLETED := by
  have h := c4_amended_failed_not_guarded
    ⟨QueryType.WRITE, QueryStatus.FAILED, Layout.ROW_MAJOR, none, [], false⟩
    ⟨none, none, false, none⟩ rfl
  refine ⟨(h.1 rfl).2.1 (Or.inl rfl), ?_⟩
  rw [h.2.2.1 rfl]

/-- C5 counterexample: a CHAR domain with a non-null subarray does not
produce an UnsupportedDomainType QueryError status: the source hits
`assert(false)` (modelled as an abort), which is not an error status at
all — in particular it is not Status.ok and not any Status.queryError. -/
theorem c5_counterexample :
    check_subarray_bounds (some ⟨Datatype.CHAR, [⟨0, 1⟩]⟩) (some fun _ => 0) =
      Status.assertFail ∧
    check_subarray_bounds (some ⟨Datatype.CHAR, [⟨0, 1⟩]⟩) (some fun _ => 0) ≠
      Status.queryError "UnsupportedDomainType" := by
  exact ⟨rfl, by decide⟩

/-- C5 amended: for every non-numeric domain type (CHAR, the STRING_*
kinds, ANY), check_subarray_bounds on a non-null subarray hits
`assert(false)` — it does not accept the subarray, but neither does it
return an UnsupportedDomainType error status. -/
theorem c5_amended_nonnumeric_asserts (dom : Domain) (sub : Nat → Rat)
    (h : dom.dtype.isNumeric = false) :
    check_subarray_bounds (some dom) (some sub) = Status.assertFail ∧
    check_subarray_bounds (some dom) (some sub) ≠ Status.ok := by
  have hb : ¬(dom.dtype.isNumeric = true) := by rw [h]; simp
  constructor
  · simp [check_subarray_bounds, hb]
  · simp [check_subarray_bounds, hb]

/-- C5 amended witness: the CHAR domain asserts and does not accept. -/
theorem c5_amended_nonnumeric_asserts_witness :
    Datatype.isNumeric Datatype.CHAR = false ∧
    check_subarray_bounds (some ⟨Datatype.CHAR, [⟨0, 1⟩]⟩) (some fun _ => 0) ≠
      Status.ok := by
  exact ⟨rfl, (c5_amended_nonnumeric_asserts ⟨Datatype.CHAR, [⟨0, 1⟩]⟩
    (fun _ => 0) rfl).2⟩

/-- C6: in copy_buffers, for an attribute `a` registered in the receiver
with a fixed size different from the donor's, the call fails and the
receiver's entry for `a` (its payload bytes included) is unchanged; when the
donor entries before `a` all process without error, the error is exactly
the BufferSizeMismatch message carrying both sizes, and that message
decomposes around the two size strings. -/
theorem c6_copy_buffers_fixed_mismatch (recv pre post : List (String × AttributeBuffer))
    (a : String) (eb db : AttributeBuffer)
    (hr : List.lookup a recv = some eb)
    (ha : a ∉ pre.map Prod.fst)
    (hsz : eb.dataSize ≠ db.dataSize) :
    (copy_buffers recv (pre ++ (a, db) :: post)).1 ≠ Status.ok ∧
    List.lookup a (copy_buffers recv (pre ++ (a, db) :: post)).2 = some eb ∧
    ((copy_buffers_go recv pre recv).1 = Status.ok →
      (copy_buffers recv (pre ++ (a, db) :: post)).1 =
        Status.queryError (fixedMismatchMsg eb.dataSize db.dataSize)) ∧
    (∃ s1 s2 s3, fixedMismatchMsg eb.dataSize db.dataSize =
      s1 ++ toString eb.dataSize ++ s2 ++ toString db.dataSize ++ s3) := by
  unfold copy_buffers
  rw [copy_buffers_go_append recv pre ((a, db) :: post) recv]
  by_cases hp : (copy_buffers_go recv pre recv).1 = Status.ok
  · rw [if_pos hp]
    have hlook : List.lookup a (copy_buffers_go recv pre recv).2 =
        some eb := by
      rw [copy_buffers_go_lookup_preserved recv a pre recv ha]
      exact hr
    simp only [copy_buffers_go, hr]
    rw [if_pos hsz]
    refine ⟨by simp, ?_, fun _ => rfl, ?_⟩
    · exact hlook
    · exact ⟨"Existing buffer in query object is different size (",
        ") vs new query object buffer size (", ")", rfl⟩
  · rw [if_neg hp]
    refine ⟨hp, ?_, fun h => absurd h hp, ?_⟩
    · rw [copy_buffers_go_lookup_preserved recv a pre recv ha]
      exact hr
    · exact ⟨"Existing buffer in query object is different size (",
        ") vs new query object buffer size (", ")", rfl⟩

/-- C6 witness: the spec's scenario — receiver attribute "a" of fixed size
40, donor of fixed size 48: the copy fails with BufferSizeMismatch(40, 48)
and the receiver's bytes are unchanged. -/
theorem c6_copy_buffers_fixed_mismatch_witness :
    (copy_buffers [("a", ⟨[7], 40, none, 0⟩)] [("a", ⟨[9], 48, none, 0⟩)]).1 =
      Status.queryError (fixedMismatchMsg 40 48) ∧
    List.lookup "a" (copy_buffers [("a", ⟨[7], 40, none, 0⟩)]
      [("a", ⟨[9], 48, none, 0⟩)]).2 = some ⟨[7], 40, none, 0⟩ := by
  have h := c6_copy_buffers_fixed_mismatch [("a", ⟨[7], 40, none, 0⟩)] [] []
    "a" ⟨[7], 40, none, 0⟩ ⟨[9], 48, none, 0⟩ (by rfl) (by simp) (by decide)
  exact ⟨h.2.2.1 rfl, h.2.1⟩

/-- C10: in copy_buffers, for a variable-length donor attribute `a` whose
fixed (offsets) size matches the receiver's but whose values size differs,
the call fails with the buffer_var_ BufferSizeMismatch message only after
the receiver's fixed payload for `a` has been overwritten with the donor's
bytes: the failure is not atomic within the attribute. -/
theorem c10_copy_buffers_var_mismatch_after_fixed_copy
    (recv pre post : List (String × AttributeBuffer))
    (a : String) (eb db : AttributeBuffer) (vd : List Nat)
    (hr : List.lookup a recv = some eb)
    (ha : a ∉ pre.map Prod.fst)
    (hvar : db.varData = some vd)
    (hfix : eb.dataSize = db.dataSize)
    (hvsz : eb.varSize ≠ db.varSize)
    (hp : (copy_buffers_go recv pre recv).1 = Status.ok) :
    (copy_buffers recv (pre ++ (a, db) :: post)).1 =
      Status.queryError (varMismatchMsg eb.varSize db.varSize) ∧
    List.lookup a (copy_buffers recv (pre ++ (a, db) :: post)).2 =
      some { eb with data := db.data.take db.dataSize ++ eb.data.drop db.dataSize } := by
  unfold copy_buffers
  rw [copy_buffers_go_append recv pre ((a, db) :: post) recv]
  rw [if_pos hp]
  have hlook : List.lookup a (copy_buffers_go recv pre recv).2 = some eb := by
    rw [copy_buffers_go_lookup_preserved recv a pre recv ha]
    exact hr
  simp only [copy_buffers_go, hr]
  rw [if_neg (by omega), hvar]
  dsimp only
  rw [if_pos hvsz]
  refine ⟨rfl, ?_⟩
  rw [lookup_updBuf_self a (memcpyFixed db.data db.dataSize)
    (copy_buffers_go recv pre recv).2]
  rw [hlook]
  rfl

/-- C10 witness: matching fixed sizes (2), values sizes 1 vs 2: the error
is the buffer_var_ mismatch and the receiver's fixed payload already holds
the donor's bytes. -/
theorem c10_copy_buffers_var_mismatch_after_fixed_copy_witness :
    (copy_buffers [("a", ⟨[7, 7], 2, some [5], 1⟩)]
      [("a", ⟨[1, 2], 2, some [8, 8], 2⟩)]).1 =
      Status.queryError (varMismatchMsg 1 2) ∧
    List.lookup "a" (copy_buffers [("a", ⟨[7, 7], 2, some [5], 1⟩)]
      [("a", ⟨[1, 2], 2, some [8, 8], 2⟩)]).2 =
      some ⟨[1, 2], 2, some [5], 1⟩ := by
  have h := c10_copy_buffers_var_mismatch_after_fixed_copy
    [("a", ⟨[7, 7], 2, some [5], 1⟩)] [] []
    "a" ⟨[7, 7], 2, some [5], 1⟩ ⟨[1, 2], 2, some [8, 8], 2⟩ [8, 8]
    (by rfl) (by simp) rfl rfl (by decide) rfl
  exact ⟨h.1, h.2⟩

/-- C8 counterexample: the donor's subarray passes bounds validation, the
donor's status is COMPLETED, but the engine's set_subarray rejects: the
discarded Status leaves the receiver's status COMPLETED (the donor's status
assigned at entry), not UNINITIALIZED. -/
theorem c8_counterexample :
    check_subarray_bounds
      (some ⟨Datatype.INT32, [⟨0, 9⟩]⟩) (some fun _ => 0) = Status.ok ∧
    (Query.copy_json_wip
      ⟨QueryType.WRITE, QueryStatus.UNINITIALIZED, Layout.ROW_MAJOR,
        some ⟨Datatype.INT32, [⟨0, 9⟩]⟩, [], false⟩
      ⟨QueryType.WRITE, QueryStatus.COMPLETED, Layout.ROW_MAJOR,
        some ⟨Datatype.INT32, [⟨0, 9⟩]⟩, [], false⟩
      ⟨some "engine rejected subarray", none, false, none⟩
      (some fun _ => 0)).2.status = QueryStatus.COMPLETED ∧
    QueryStatus.COMPLETED ≠ QueryStatus.UNINITIALIZED := by
  refine ⟨by decide, by decide, by decide⟩

/-- C8 amended: whenever the donor's subarray passes bounds validation and
the engine accepts it, copy_json_wip leaves the receiver's status
UNINITIALIZED regardless of the donor's status (the donor's status assigned
at entry is overwritten by set_subarray's reset); if the engine rejects the
subarray, the discarded Status leaves the receiver holding the donor's
status; in either case the Status returned by set_subarray never escapes
copy_json_wip (the returned Status is copy_buffers', never an engine
error). -/
theorem c8_amended_copy_json_wip_status (recv donor : Query) (eng : Engine)
    (dsub : Option (Nat → Rat)) (dom : Domain)
    (hs : recv.schema = some dom)
    (hn : dom.dtype.isNumeric = true)
    (hb : check_subarray_bounds recv.schema dsub = Status.ok) :
    (eng.subarrayResult = none →
      (Query.copy_json_wip recv donor eng dsub).2.status =
        QueryStatus.UNINITIALIZED) ∧
    (∀ m, eng.subarrayResult = some m →
      (Query.copy_json_wip recv donor eng dsub).2.status = donor.status) ∧
    (∀ m, (Query.copy_json_wip recv donor eng dsub).1 ≠ Status.engineError m) := by
  have hb2 : check_subarray_bounds (some dom) dsub = Status.ok := by
    rw [← hs]; exact hb
  refine ⟨?_, ?_, ?_⟩
  · intro he
    unfold Query.copy_json_wip Query.set_subarray
    simp [hs, hn, hb2, he]
  · intro m he
    unfold Query.copy_json_wip Query.set_subarray
    simp [hs, hn, hb2, he]
  · intro m
    unfold Query.copy_json_wip
    simp only [hs]
    rw [if_pos hn]
    exact copy_buffers_no_engineError _ _ _ m

/-- C8 amended witness: with an accepting engine the receiver ends
UNINITIALIZED even though the donor was COMPLETED. -/
theorem c8_amended_copy_json_wip_status_witness :
    (Query.copy_json_wip
      ⟨QueryType.WRITE, QueryStatus.UNINITIALIZED, Layout.ROW_MAJOR,
        some ⟨Datatype.INT32, [⟨0, 9⟩]⟩, [], false⟩
      ⟨QueryType.WRITE, QueryStatus.COMPLETED, Layout.ROW_MAJOR,
        some ⟨Datatype.INT32, [⟨0, 9⟩]⟩, [], false⟩
      ⟨none, none, false, none⟩
      (some fun _ => 0)).2.status = QueryStatus.UNINITIALIZED := by
  exact (c8_amended_copy_json_wip_status _ _ _ _ ⟨Datatype.INT32, [⟨0, 9⟩]⟩
    rfl rfl (by decide)).1 rfl

end TileDB
